import Mathlib

/-!
Verification of the TaskManager (Kanban board) status model.

This file gives a shallow embedding of the repository's status-model logic:

* `deriveStatusKey` embeds the column-title normalisation performed in
  `handleCreateColumn` (BoardDetail.tsx):
  `data.title.toUpperCase().replace(/\s+/g, '_')`.
* `Board`, `Task`, `Column`, `Store` embed the Prisma data model
  (backend/prisma/schema.prisma as quoted in the repository documentation),
  and the route handlers of `routes/boards.js` (embedded in server.test.js),
  `routes/tasks.js` and `routes/columns.js` become functions on `Store`.
* `effectiveColumns`, `isStatic`, `isDeletable`, `getStatusLabel` embed the
  client-side column synthesis of BoardDetail.tsx / TaskColumn.tsx.

Machine strings are Lean `String`s; the ASCII case mapping of JavaScript's
`toUpperCase` is embedded at the character level by `upperChar`, and the
regex class `\s` by `jsWhitespace`.
-/

namespace Kanban

/-- Character-level embedding of the ASCII fragment of JavaScript
`String.prototype.toUpperCase`: code points in `[97, 122]` (`'a'`–`'z'`)
are shifted down by 32, all other characters are returned unchanged. -/
def upperChar (c : Char) : Char :=
  if 97 ≤ c.toNat ∧ c.toNat ≤ 122 then Char.ofNat (c.toNat - 32) else c

/-- Embedding of the JavaScript regex character class `\s` (the whitespace
characters matched by `/\s+/`). -/
def jsWhitespace (c : Char) : Bool :=
  c.toNat = 0x20 || c.toNat = 0x09 || c.toNat = 0x0A || c.toNat = 0x0B ||
  c.toNat = 0x0C || c.toNat = 0x0D || c.toNat = 0xA0 || c.toNat = 0x1680 ||
  (0x2000 ≤ c.toNat && c.toNat ≤ 0x200A) || c.toNat = 0x2028 ||
  c.toNat = 0x2029 || c.toNat = 0x202F || c.toNat = 0x205F ||
  c.toNat = 0x3000 || c.toNat = 0xFEFF

/-- Embedding of `.replace(/\s+/g, '_')` on a character list: each maximal
run of whitespace characters is replaced by a single `'_'`.  The boolean
flag records whether the previous character belonged to a whitespace run. -/
def collapseWsAux : Bool → List Char → List Char
  | _, [] => []
  | prevWs, c :: rest =>
    if jsWhitespace c then
      if prevWs then collapseWsAux true rest
      else '_' :: collapseWsAux true rest
    else c :: collapseWsAux false rest

/-- Embedding of the status-key derivation in `handleCreateColumn`
(BoardDetail.tsx): `data.title.toUpperCase().replace(/\s+/g, '_')`. -/
def deriveStatusKey (s : String) : String :=
  ⟨collapseWsAux false (s.data.map upperChar)⟩

theorem toNat_ofNat_of_lt (n : Nat) (h : n < 0xd800) :
    (Char.ofNat n).toNat = n := by
  unfold Char.ofNat Char.ofNatAux
  split
  · rfl
  · next h2 => exact absurd (Or.inl h) h2

theorem upperChar_toNat (c : Char) (h : 97 ≤ c.toNat ∧ c.toNat ≤ 122) :
    (upperChar c).toNat = c.toNat - 32 := by
  unfold upperChar
  rw [if_pos h, toNat_ofNat_of_lt]
  omega

theorem upperChar_idem (c : Char) : upperChar (upperChar c) = upperChar c := by
  by_cases h : 97 ≤ c.toNat ∧ c.toNat ≤ 122
  · have ht : (upperChar c).toNat = c.toNat - 32 := upperChar_toNat c h
    unfold upperChar
    rw [if_pos h]
    rw [upperChar] at ht
    rw [if_pos h] at ht
    rw [if_neg (by omega)]
  · unfold upperChar
    rw [if_neg h, if_neg h]

theorem jsWhitespace_eq_false_of_range (c : Char)
    (h : (65 ≤ c.toNat ∧ c.toNat ≤ 90) ∨ (97 ≤ c.toNat ∧ c.toNat ≤ 122)) :
    jsWhitespace c = false := by
  simp only [jsWhitespace, Bool.or_eq_false_iff, decide_eq_false_iff_not,
    Bool.and_eq_false_iff]
  omega

theorem jsWhitespace_upperChar (c : Char) :
    jsWhitespace (upperChar c) = jsWhitespace c := by
  by_cases h : 97 ≤ c.toNat ∧ c.toNat ≤ 122
  · have ht : (upperChar c).toNat = c.toNat - 32 := upperChar_toNat c h
    rw [jsWhitespace_eq_false_of_range (upperChar c) (Or.inl (by omega)),
      jsWhitespace_eq_false_of_range c (Or.inr h)]
  · unfold upperChar
    rw [if_neg h]

theorem mem_collapseWsAux (b : Bool) (l : List Char) (c : Char)
    (hc : c ∈ collapseWsAux b l) :
    c = '_' ∨ (c ∈ l ∧ jsWhitespace c = false) := by
  induction l generalizing b with
  | nil => simp [collapseWsAux] at hc
  | cons d rest ih =>
    simp only [collapseWsAux] at hc
    by_cases hd : jsWhitespace d = true
    · rw [if_pos hd] at hc
      by_cases hb : b = true
      · subst hb
        simp only [if_pos rfl] at hc
        rcases ih true hc with h | ⟨h1, h2⟩
        · exact Or.inl h
        · exact Or.inr ⟨List.mem_cons_of_mem _ h1, h2⟩
      · have hb' : b = false := by
          cases b
          · rfl
          · exact absurd rfl hb
        subst hb'
        simp only [Bool.false_eq_true, if_false, List.mem_cons] at hc
        rcases hc with h | h
        · exact Or.inl h
        · rcases ih true h with h | ⟨h1, h2⟩
          · exact Or.inl h
          · exact Or.inr ⟨List.mem_cons_of_mem _ h1, h2⟩
    · rw [if_neg hd] at hc
      rcases List.mem_cons.mp hc with h | h
      · subst h
        exact Or.inr ⟨List.mem_cons_self _ _, by
          cases hj : jsWhitespace c
          · rfl
          · exact absurd hj hd⟩
      · rcases ih false h with h | ⟨h1, h2⟩
        · exact Or.inl h
        · exact Or.inr ⟨List.mem_cons_of_mem _ h1, h2⟩

theorem collapseWsAux_of_no_ws (b : Bool) (l : List Char)
    (h : ∀ c ∈ l, jsWhitespace c = false) :
    collapseWsAux b l = l := by
  induction l generalizing b with
  | nil => rfl
  | cons d rest ih =>
    have hd : jsWhitespace d = false := h d (List.mem_cons_self _ _)
    simp only [collapseWsAux, hd, Bool.false_eq_true, if_false]
    rw [ih false (fun c hc => h c (List.mem_cons_of_mem _ hc))]

theorem map_upperChar_of_fixed (l : List Char)
    (h : ∀ c ∈ l, upperChar c = c) : l.map upperChar = l := by
  induction l with
  | nil => rfl
  | cons d rest ih =>
    simp only [List.map_cons, h d (List.mem_cons_self _ _), List.cons.injEq, true_and]
    exact ih (fun c hc => h c (List.mem_cons_of_mem _ hc))

theorem deriveStatusKey_idem (s : String) :
    deriveStatusKey (deriveStatusKey s) = deriveStatusKey s := by
  unfold deriveStatusKey
  have hout : ∀ c ∈ collapseWsAux false (s.data.map upperChar),
      upperChar c = c ∧ jsWhitespace c = false := by
    intro c hc
    rcases mem_collapseWsAux false _ c hc with h | ⟨h1, h2⟩
    · subst h
      constructor
      · decide
      · decide
    · refine ⟨?_, h2⟩
      rcases List.mem_map.mp h1 with ⟨a, _, ha⟩
      rw [← ha]
      exact upperChar_idem a
  congr 1
  rw [map_upperChar_of_fixed _ (fun c hc => (hout c hc).1)]
  exact collapseWsAux_of_no_ws false _ (fun c hc => (hout c hc).2)

/-- C2: `deriveStatusKey` uppercases its input and collapses each whitespace
run to a single underscore — `deriveStatusKey "In Review" = "IN_REVIEW"` and
`deriveStatusKey "code   review" = "CODE_REVIEW"` — and it is idempotent:
`deriveStatusKey (deriveStatusKey s) = deriveStatusKey s` for every string. -/
theorem C2_deriveStatusKey_examples_and_idempotent :
    deriveStatusKey "In Review" = "IN_REVIEW" ∧
    deriveStatusKey "code   review" = "CODE_REVIEW" ∧
    ∀ s : String, deriveStatusKey (deriveStatusKey s) = deriveStatusKey s := by
  refine ⟨by decide, by decide, deriveStatusKey_idem⟩

/-- Embedding of the express-validator `trim()` sanitizer: validator.js
removes JavaScript whitespace characters from both ends of the string. -/
def jsTrim (s : String) : String :=
  ⟨((s.data.dropWhile jsWhitespace).reverse.dropWhile jsWhitespace).reverse⟩

/-- Row of the Prisma `Board` model (schema.prisma): opaque `id`, required
`title`, optional `description`.  Timestamps carry no logical content for the
verified properties and are omitted. -/
structure Board where
  id : String
  title : String
  description : Option String
deriving Repr, DecidableEq

/-- Row of the Prisma `Task` model: `status` and `priority` are plain strings
(`status String @default("TODO")`), `boardId` references a Board with
`onDelete: Cascade`. -/
structure Task where
  id : String
  title : String
  description : Option String
  status : String
  priority : String
  boardId : String
deriving Repr, DecidableEq

/-- Row of the Prisma `Column` model: free-form `status` string, integer
`order`, `boardId` references a Board with `onDelete: Cascade`. -/
structure Column where
  id : String
  title : String
  status : String
  order : Int
  boardId : String
deriving Repr, DecidableEq

/-- Database state: the three Prisma tables. -/
structure Store where
  boards : List Board
  tasks : List Task
  columns : List Column
deriving Repr, DecidableEq

/-- Observable result of a route handler: `ok` is the 200/201 success
envelope, `notFound` the 404 envelope (message from the handler), and
`validationFailed` the 400 envelope with the express-validator
`details` array as (field, message) pairs. -/
inductive Outcome (α : Type) where
  | ok : α → Outcome α
  | notFound : String → Outcome α
  | validationFailed : List (String × String) → Outcome α
deriving Repr, DecidableEq

/-- Embedding of the `validateBoard` chain (routes/boards.js):
`title` is trimmed then must have length 1–100 (a missing title fails the
same check), `description` is optional, trimmed, length at most 500.
Returns the express-validator error details (field, message). -/
def validateBoardBody (title description : Option String) :
    List (String × String) :=
  (match title with
   | none => [("title", "Title must be between 1 and 100 characters")]
   | some t =>
     if 1 ≤ (jsTrim t).length ∧ (jsTrim t).length ≤ 100 then []
     else [("title", "Title must be between 1 and 100 characters")]) ++
  (match description with
   | none => []
   | some d =>
     if (jsTrim d).length ≤ 500 then []
     else [("description", "Description must be less than 500 characters")])

/-- Embedding of the `validateTask` chain (routes/tasks.js, POST):
required trimmed `title` of length 1–200, optional trimmed `description`
of length ≤ 1000, optional `status` that only needs to be a string (any
string value passes, including the empty string), optional `priority`
restricted to LOW/MEDIUM/HIGH, required string `boardId`. -/
def validateTaskBody (title description status priority boardId : Option String) :
    List (String × String) :=
  (match title with
   | none => [("title", "Title must be between 1 and 200 characters")]
   | some t =>
     if 1 ≤ (jsTrim t).length ∧ (jsTrim t).length ≤ 200 then []
     else [("title", "Title must be between 1 and 200 characters")]) ++
  (match description with
   | none => []
   | some d =>
     if (jsTrim d).length ≤ 1000 then []
     else [("description", "Description must be less than 1000 characters")]) ++
  (match status with
   | none => []
   | some _ => []) ++
  (match priority with
   | none => []
   | some p =>
     if p = "LOW" ∨ p = "MEDIUM" ∨ p = "HIGH" then []
     else [("priority", "Priority must be LOW, MEDIUM, or HIGH")]) ++
  (match boardId with
   | none => [("boardId", "Board ID is required")]
   | some _ => [])

/-- Embedding of the inline validator chain of PUT /api/tasks/:id: the same
field rules as task creation but every field optional and no `boardId`. -/
def validateTaskUpdateBody (title description status priority : Option String) :
    List (String × String) :=
  (match title with
   | none => []
   | some t =>
     if 1 ≤ (jsTrim t).length ∧ (jsTrim t).length ≤ 200 then []
     else [("title", "Title must be between 1 and 200 characters")]) ++
  (match description with
   | none => []
   | some d =>
     if (jsTrim d).length ≤ 1000 then []
     else [("description", "Description must be less than 1000 characters")]) ++
  (match status with
   | none => []
   | some _ => []) ++
  (match priority with
   | none => []
   | some p =>
     if p = "LOW" ∨ p = "MEDIUM" ∨ p = "HIGH" then []
     else [("priority", "Priority must be LOW, MEDIUM, or HIGH")])

/-- Embedding of the `validateColumn` chain (routes/columns.js, POST):
required trimmed `title` (1–100), required trimmed `status` (1–50),
required string `boardId`. -/
def validateColumnBody (title status boardId : Option String) :
    List (String × String) :=
  (match title with
   | none => [("title", "Title must be between 1 and 100 characters")]
   | some t =>
     if 1 ≤ (jsTrim t).length ∧ (jsTrim t).length ≤ 100 then []
     else [("title", "Title must be between 1 and 100 characters")]) ++
  (match status with
   | none => [("status", "Status must be between 1 and 50 characters")]
   | some st =>
     if 1 ≤ (jsTrim st).length ∧ (jsTrim st).length ≤ 50 then []
     else [("status", "Status must be between 1 and 50 characters")]) ++
  (match boardId with
   | none => [("boardId", "Board ID is required")]
   | some _ => [])

/-- Embedding of the inline validator chain of PUT /api/columns/:id. -/
def validateColumnUpdateBody (title status : Option String) (order : Option Int) :
    List (String × String) :=
  (match title with
   | none => []
   | some t =>
     if 1 ≤ (jsTrim t).length ∧ (jsTrim t).length ≤ 100 then []
     else [("title", "Title must be between 1 and 100 characters")]) ++
  (match status with
   | none => []
   | some st =>
     if 1 ≤ (jsTrim st).length ∧ (jsTrim st).length ≤ 50 then []
     else [("status", "Status must be between 1 and 50 characters")]) ++
  (match order with
   | none => []
   | some o =>
     if 0 ≤ o then []
     else [("order", "Order must be a non-negative integer")])

/-- GET /api/boards/:id — `prisma.board.findUnique` then 404 when absent. -/
def fetchBoard (s : Store) (id : String) : Outcome Board :=
  match s.boards.find? (fun b => b.id == id) with
  | some b => .ok b
  | none => .notFound "Board not found"

/-- GET /api/tasks/:id. -/
def fetchTask (s : Store) (id : String) : Outcome Task :=
  match s.tasks.find? (fun t => t.id == id) with
  | some t => .ok t
  | none => .notFound "Task not found"

/-- GET /api/columns/:id. -/
def fetchColumn (s : Store) (id : String) : Outcome Column :=
  match s.columns.find? (fun c => c.id == id) with
  | some c => .ok c
  | none => .notFound "Column not found"

/-- POST /api/boards — validation first (400 before any store access), then
`prisma.board.create` with the sanitised (trimmed) fields.  `newId` stands
for the generated cuid. -/
def createBoard (s : Store) (newId : String) (title description : Option String) :
    Outcome Board × Store :=
  match validateBoardBody title description with
  | [] =>
    let b : Board := { id := newId, title := jsTrim (title.getD ""),
                       description := description.map (fun d => (jsTrim d)) }
    (.ok b, { s with boards := s.boards ++ [b] })
  | errs => (.validationFailed errs, s)

/-- PUT /api/boards/:id — runs the same `validateBoard` chain as creation
(so `title` is required), then `prisma.board.update` which sets `title`
and, when supplied, `description` (an absent field is `undefined` in the
update payload and Prisma leaves the stored value unchanged); a missing
record raises P2025, reported as 404. -/
def updateBoard (s : Store) (id : String) (title description : Option String) :
    Outcome Board × Store :=
  match validateBoardBody title description with
  | [] =>
    match s.boards.find? (fun b => b.id == id) with
    | none => (.notFound "Board not found", s)
    | some b =>
      let b' : Board := { b with
        title := jsTrim (title.getD ""),
        description := match description with
          | none => b.description
          | some d => some (jsTrim d) }
      (.ok b', { s with boards := s.boards.map (fun c => if c.id == id then b' else c) })
  | errs => (.validationFailed errs, s)

/-- DELETE /api/boards/:id — `prisma.board.delete`: P2025 (404) when the
board is absent, otherwise the row is removed and `onDelete: Cascade` on
Task.board and Column.board removes every Task and Column whose `boardId`
is the deleted id, in the same operation. -/
def deleteBoard (s : Store) (id : String) : Outcome Unit × Store :=
  if s.boards.any (fun b => b.id == id) then
    (.ok (), { boards := s.boards.filter (fun b => b.id != id),
               tasks := s.tasks.filter (fun t => t.boardId != id),
               columns := s.columns.filter (fun c => c.boardId != id) })
  else (.notFound "Board not found", s)

/-- POST /api/tasks — validation, then the board-existence pre-check
(404 "Board not found" with no row created), then `prisma.task.create`
with `status: status || 'TODO'` and `priority: priority || 'MEDIUM'`. -/
def createTask (s : Store) (newId : String)
    (title description status priority boardId : Option String) :
    Outcome Task × Store :=
  match validateTaskBody title description status priority boardId with
  | [] =>
    let bid := boardId.getD ""
    if s.boards.any (fun b => b.id == bid) then
      let t : Task := {
        id := newId,
        title := jsTrim (title.getD ""),
        description := description.map (fun d => (jsTrim d)),
        status := match status with
          | none => "TODO"
          | some st => if st == "" then "TODO" else st,
        priority := match priority with
          | none => "MEDIUM"
          | some p => if p == "" then "MEDIUM" else p,
        boardId := bid }
      (.ok t, { s with tasks := s.tasks ++ [t] })
    else (.notFound "Board not found", s)
  | errs => (.validationFailed errs, s)

/-- PUT /api/tasks/:id — optional-field validation, then an update payload
assembled only from the fields present in the body (`boardId` is never
part of it), applied by `prisma.task.update` (404 on P2025). -/
def updateTask (s : Store) (id : String)
    (title description status priority : Option String) :
    Outcome Task × Store :=
  match validateTaskUpdateBody title description status priority with
  | [] =>
    match s.tasks.find? (fun t => t.id == id) with
    | none => (.notFound "Task not found", s)
    | some t =>
      let t' : Task := { t with
        title := match title with
          | none => t.title
          | some x => (jsTrim x),
        description := match description with
          | none => t.description
          | some d => some (jsTrim d),
        status := match status with
          | none => t.status
          | some st => st,
        priority := match priority with
          | none => t.priority
          | some p => p }
      (.ok t', { s with tasks := s.tasks.map (fun u => if u.id == id then t' else u) })
  | errs => (.validationFailed errs, s)

/-- DELETE /api/tasks/:id. -/
def deleteTask (s : Store) (id : String) : Outcome Unit × Store :=
  if s.tasks.any (fun t => t.id == id) then
    (.ok (), { s with tasks := s.tasks.filter (fun t => t.id != id) })
  else (.notFound "Task not found", s)

/-- Greatest `order` among a list of columns, i.e. the `order` of the row
returned by `prisma.column.findFirst({..., orderBy: { order: 'desc' }})`,
or `none` when the board has no columns. -/
def maxOrder : List Column → Option Int
  | [] => none
  | c :: rest =>
    match maxOrder rest with
    | none => some c.order
    | some m => some (max c.order m)

/-- Order assigned to a newly created column (routes/columns.js):
`lastColumn ? lastColumn.order + 1 : 0`. -/
def nextColumnOrder (cols : List Column) : Int :=
  match maxOrder cols with
  | some m => m + 1
  | none => 0

/-- POST /api/columns — validation, board-existence pre-check, then
`prisma.column.create` with the auto-assigned `order`. -/
def createColumn (s : Store) (newId : String)
    (title status boardId : Option String) :
    Outcome Column × Store :=
  match validateColumnBody title status boardId with
  | [] =>
    let bid := boardId.getD ""
    if s.boards.any (fun b => b.id == bid) then
      let col : Column := {
        id := newId,
        title := jsTrim (title.getD ""),
        status := jsTrim (status.getD ""),
        order := nextColumnOrder (s.columns.filter (fun c => c.boardId == bid)),
        boardId := bid }
      (.ok col, { s with columns := s.columns ++ [col] })
    else (.notFound "Board not found", s)
  | errs => (.validationFailed errs, s)

/-- PUT /api/columns/:id — optional-field validation, partial update of
title/status/order (`boardId` never changes), 404 on P2025. -/
def updateColumn (s : Store) (id : String)
    (title status : Option String) (order : Option Int) :
    Outcome Column × Store :=
  match validateColumnUpdateBody title status order with
  | [] =>
    match s.columns.find? (fun c => c.id == id) with
    | none => (.notFound "Column not found", s)
    | some c =>
      let c' : Column := { c with
        title := match title with
          | none => c.title
          | some x => (jsTrim x),
        status := match status with
          | none => c.status
          | some st => (jsTrim st),
        order := match order with
          | none => c.order
          | some o => o }
      (.ok c', { s with columns := s.columns.map (fun d => if d.id == id then c' else d) })
  | errs => (.validationFailed errs, s)

/-- DELETE /api/columns/:id. -/
def deleteColumn (s : Store) (id : String) : Outcome Unit × Store :=
  if s.columns.any (fun c => c.id == id) then
    (.ok (), { s with columns := s.columns.filter (fun c => c.id != id) })
  else (.notFound "Column not found", s)

/-- Every mutating operation the API exposes, with its request payload.
The `newId` arguments stand for the server-generated cuids. -/
inductive Op where
  | createBoard (newId : String) (title description : Option String)
  | updateBoard (id : String) (title description : Option String)
  | deleteBoard (id : String)
  | createTask (newId : String) (title description status priority boardId : Option String)
  | updateTask (id : String) (title description status priority : Option String)
  | deleteTask (id : String)
  | createColumn (newId : String) (title status boardId : Option String)
  | updateColumn (id : String) (title status : Option String) (order : Option Int)
  | deleteColumn (id : String)
deriving Repr, DecidableEq

/-- Store resulting from running one API operation. -/
def applyOp (op : Op) (s : Store) : Store :=
  match op with
  | .createBoard newId title description => (createBoard s newId title description).2
  | .updateBoard id title description => (updateBoard s id title description).2
  | .deleteBoard id => (deleteBoard s id).2
  | .createTask newId title description status priority boardId =>
      (createTask s newId title description status priority boardId).2
  | .updateTask id title description status priority =>
      (updateTask s id title description status priority).2
  | .deleteTask id => (deleteTask s id).2
  | .createColumn newId title status boardId =>
      (createColumn s newId title status boardId).2
  | .updateColumn id title status order => (updateColumn s id title status order).2
  | .deleteColumn id => (deleteColumn s id).2

/-- Referential-integrity invariant: every Task and every Column references
an existing Board. -/
def noOrphans (s : Store) : Prop :=
  (∀ t ∈ s.tasks, ∃ b ∈ s.boards, b.id = t.boardId) ∧
  (∀ c ∈ s.columns, ∃ b ∈ s.boards, b.id = c.boardId)

/-- Primary-key uniqueness, which the database guarantees via `@id`. -/
def Store.wf (s : Store) : Prop :=
  (s.boards.map Board.id).Nodup ∧
  (s.tasks.map Task.id).Nodup ∧
  (s.columns.map Column.id).Nodup

instance (s : Store) : Decidable (noOrphans s) := by
  unfold noOrphans
  infer_instance

instance (s : Store) : Decidable (Store.wf s) := by
  unfold Store.wf
  infer_instance

/-- Embedding of `staticStatuses` (BoardDetail.tsx): the columns that are
always rendered for every board. -/
def staticStatuses : List String := ["TODO", "IN_PROGRESS", "DONE"]

/-- Embedding of `staticStatuses.includes(status)` (BoardDetail.tsx). -/
def isStatic (st : String) : Bool := staticStatuses.contains st

/-- Embedding of `isStatic ? undefined : () => deleteColumn(...)`
(BoardDetail.tsx): a rendered column offers the column-delete operation
exactly when its status is not static.  The spec names this predicate
`isDeletable`. -/
def isDeletable (st : String) : Bool := !(isStatic st)

/-- Columns of a board as the client receives them: the backend list
endpoints return them sorted by `order` ascending (`orderBy: order asc`),
ties preserving insertion order (stable sort). -/
def sortByOrder (cols : List Column) : List Column :=
  List.insertionSort (fun a b => a.order ≤ b.order) cols

/-- Rendered column entry: the `status`/`title`/`isStatic` triple
BoardDetail.tsx passes to each `TaskColumn`. -/
structure EffCol where
  status : String
  title : String
  isStatic : Bool
deriving Repr, DecidableEq

/-- Embedding of the column synthesis in BoardDetail.tsx: `allStatuses`
is `[...staticStatuses, ...columns.map(col => col.status)]` and each
status is rendered with `title = column?.title || status` (first matching
column record wins) and `isStatic = staticStatuses.includes(status)`. -/
def effectiveColumns (cols : List Column) : List EffCol :=
  let sorted := sortByOrder cols
  (staticStatuses ++ sorted.map Column.status).map (fun st =>
    { status := st,
      title := match sorted.find? (fun c => c.status == st) with
        | some c => if c.title == "" then st else c.title
        | none => st,
      isStatic := isStatic st })

/-- Embedding of `getStatusLabel` (TaskColumn.tsx). -/
def getStatusLabel (st : String) : String :=
  if st == "TODO" then "TODO"
  else if st == "IN_PROGRESS" then "DOING"
  else if st == "DONE" then "DONE"
  else st

/-- Label actually displayed for a rendered column:
`{title || getStatusLabel(status)}` in TaskColumn.tsx, applied to the
`title` prop BoardDetail.tsx passes. -/
def displayLabel (e : EffCol) : String :=
  if e.title == "" then getStatusLabel e.status else e.title

/-- Concrete column whose status collides with the static status TODO. -/
def todoColumn : Column :=
  { id := "c1", title := "My Todo", status := "TODO", order := 0, boardId := "b1" }

/-- C3 fails as stated: with a stored Column of status `"TODO"`, the
rendered sequence contains the static status TODO twice, and with no
stored Columns the displayed label of the IN_PROGRESS entry is
`"IN_PROGRESS"`, not the claimed fixed label `"DOING"`. -/
theorem C3_counterexample :
    ((effectiveColumns [todoColumn]).map EffCol.status).count "TODO" = 2 ∧
    (effectiveColumns []).map displayLabel = ["TODO", "IN_PROGRESS", "DONE"] := by
  constructor
  · decide
  · decide

theorem effectiveColumns_status_map (cols : List Column) :
    (effectiveColumns cols).map EffCol.status
      = ["TODO", "IN_PROGRESS", "DONE"] ++ (sortByOrder cols).map Column.status := by
  simp [effectiveColumns, staticStatuses, List.map_map]

theorem mem_effectiveColumns (cols : List Column) (e : EffCol)
    (he : e ∈ effectiveColumns cols) :
    ∃ st, e = { status := st,
                title := match (sortByOrder cols).find? (fun c => c.status == st) with
                  | some c => if c.title == "" then st else c.title
                  | none => st,
                isStatic := isStatic st } := by
  rcases List.mem_map.mp he with ⟨st, _, h⟩
  exact ⟨st, h.symm⟩

theorem sortByOrder_perm (cols : List Column) : (sortByOrder cols).Perm cols :=
  List.perm_insertionSort _ cols

theorem sortByOrder_sorted (cols : List Column) :
    (sortByOrder cols).Pairwise (fun a b => a.order ≤ b.order) := by
  haveI : IsTotal Column (fun a b => a.order ≤ b.order) :=
    ⟨fun a b => le_total a.order b.order⟩
  haveI : IsTrans Column (fun a b => a.order ≤ b.order) :=
    ⟨fun _ _ _ h1 h2 => le_trans h1 h2⟩
  exact List.sorted_insertionSort _ cols

/-- C3 amended: `effectiveColumns` yields the three static statuses first in
the fixed order TODO, IN_PROGRESS, DONE, followed by the statuses of the
board's Column records ordered by `order` ascending; an entry is marked
static exactly when its status is one of the three; the displayed label of
an entry with no matching Column record is the raw status string (so the
static labels are "TODO"/"IN_PROGRESS"/"DONE"), a matching Column's
non-empty title wins for display, and a Column whose status equals a
static status makes that status appear a second time in the sequence
rather than being deduplicated. -/
theorem C3_effectiveColumns_amended (cols : List Column) :
    ((effectiveColumns cols).map EffCol.status
      = ["TODO", "IN_PROGRESS", "DONE"] ++ (sortByOrder cols).map Column.status) ∧
    (sortByOrder cols).Perm cols ∧
    (sortByOrder cols).Pairwise (fun a b => a.order ≤ b.order) ∧
    (∀ e ∈ effectiveColumns cols, e.isStatic = isStatic e.status) ∧
    (∀ e ∈ effectiveColumns cols,
      (sortByOrder cols).find? (fun c => c.status == e.status) = none →
      e.status ≠ "" → displayLabel e = e.status) ∧
    (∀ e ∈ effectiveColumns cols, ∀ c : Column,
      (sortByOrder cols).find? (fun c => c.status == e.status) = some c →
      c.title ≠ "" → displayLabel e = c.title) := by
  refine ⟨effectiveColumns_status_map cols, sortByOrder_perm cols,
    sortByOrder_sorted cols, ?_, ?_, ?_⟩
  · intro e he
    rcases mem_effectiveColumns cols e he with ⟨st, rfl⟩
    rfl
  · intro e he hfind hne
    rcases mem_effectiveColumns cols e he with ⟨st, rfl⟩
    simp only [displayLabel]
    dsimp only at hfind hne ⊢
    rw [hfind]
    simp [hne]
  · intro e he c hfind hne
    rcases mem_effectiveColumns cols e he with ⟨st, rfl⟩
    simp only [displayLabel]
    dsimp only at hfind ⊢
    rw [hfind]
    simp [hne]

/-- Concrete custom column used to instantiate the rendering theorems. -/
def qaColumn : Column :=
  { id := "c2", title := "QA", status := "QA", order := 1, boardId := "b1" }

theorem C3_witness :
    displayLabel { status := "QA", title := "QA", isStatic := false } = "QA" :=
  (C3_effectiveColumns_amended [qaColumn]).2.2.2.2.2
    { status := "QA", title := "QA", isStatic := false } (by decide) qaColumn
    (by decide) (by decide)

theorem maxOrder_eq_none (cols : List Column) (h : maxOrder cols = none) :
    cols = [] := by
  cases cols with
  | nil => rfl
  | cons d rest =>
    simp only [maxOrder] at h
    cases hr : maxOrder rest with
    | none => rw [hr] at h; exact absurd h (by simp)
    | some m => rw [hr] at h; exact absurd h (by simp)

theorem maxOrder_spec (cols : List Column) (m : Int) (h : maxOrder cols = some m) :
    (∃ c ∈ cols, c.order = m) ∧ ∀ c ∈ cols, c.order ≤ m := by
  induction cols generalizing m with
  | nil => simp [maxOrder] at h
  | cons d rest ih =>
    simp only [maxOrder] at h
    cases hr : maxOrder rest with
    | none =>
      rw [hr] at h
      have hm : d.order = m := by
        simpa using h
      constructor
      · exact ⟨d, List.mem_cons_self _ _, hm⟩
      · intro c hc
        rcases List.mem_cons.mp hc with rfl | hc'
        · omega
        · rw [maxOrder_eq_none rest hr] at hc'
          simp at hc'
    | some m' =>
      rw [hr] at h
      have hm : max d.order m' = m := by
        simpa using h
      rcases ih m' hr with ⟨⟨c0, hc0, hc0m⟩, hall⟩
      constructor
      · by_cases hd : m' ≤ d.order
        · exact ⟨d, List.mem_cons_self _ _, by omega⟩
        · refine ⟨c0, List.mem_cons_of_mem _ hc0, ?_⟩
          have : max d.order m' = m' := by omega
          omega
      · intro c hc
        rcases List.mem_cons.mp hc with rfl | hc'
        · omega
        · have := hall c hc'
          omega

/-- Concrete columns realising the spec's `[{order:0},{order:3}]` example. -/
def orderZeroColumn : Column :=
  { id := "c3", title := "A", status := "A", order := 0, boardId := "b1" }

/-- Second column of the spec example, with order 3. -/
def orderThreeColumn : Column :=
  { id := "c4", title := "B", status := "B", order := 3, boardId := "b1" }

/-- C5: `nextColumnOrder` returns 0 on an empty column set, returns one more
than the maximum `order` of a nonempty set (so 4 over orders {0, 3}), and
the `order` auto-assigned by column creation to the new column equals
`nextColumnOrder` of the board's existing columns. -/
theorem C5_nextColumnOrder_spec :
    nextColumnOrder [] = 0 ∧
    nextColumnOrder [orderZeroColumn, orderThreeColumn] = 4 ∧
    (∀ cols : List Column, cols ≠ [] →
      ∃ c ∈ cols, nextColumnOrder cols = c.order + 1 ∧ ∀ d ∈ cols, d.order ≤ c.order) ∧
    (∀ (s : Store) (newId : String) (title status boardId : Option String)
       (col : Column) (s' : Store),
      createColumn s newId title status boardId = (.ok col, s') →
      col.order = nextColumnOrder (s.columns.filter (fun c => c.boardId == col.boardId))) := by
  refine ⟨rfl, by decide, ?_, ?_⟩
  · intro cols hne
    cases hm : maxOrder cols with
    | none => exact absurd (maxOrder_eq_none cols hm) hne
    | some m =>
      rcases maxOrder_spec cols m hm with ⟨⟨c, hc, hcm⟩, hall⟩
      refine ⟨c, hc, ?_, ?_⟩
      · simp [nextColumnOrder, hm, hcm]
      · intro d hd
        have := hall d hd
        omega
  · intro s newId title status boardId col s' h
    unfold createColumn at h
    split at h
    · dsimp only at h
      split at h
      · rw [Prod.mk.injEq] at h
        have hcol := h.1
        rw [Outcome.ok.injEq] at hcol
        subst hcol
        rfl
      · exact absurd ((Prod.mk.injEq _ _ _ _).mp h).1 (by simp)
    · exact absurd ((Prod.mk.injEq _ _ _ _).mp h).1 (by simp)

theorem C5_witness :
    (([] : List Column) ≠ [] → False) ∧
    (∃ c ∈ [orderZeroColumn, orderThreeColumn],
      nextColumnOrder [orderZeroColumn, orderThreeColumn] = c.order + 1 ∧
      ∀ d ∈ [orderZeroColumn, orderThreeColumn], d.order ≤ c.order) := by
  constructor
  · intro h
    exact h rfl
  · exact C5_nextColumnOrder_spec.2.2.1 [orderZeroColumn, orderThreeColumn] (by decide)

/-- C7: `isDeletable` is false exactly on the three static statuses and true
on every other status string; the static statuses therefore never offer the
column-delete operation. -/
theorem C7_isDeletable_spec :
    isDeletable "TODO" = false ∧
    isDeletable "IN_PROGRESS" = false ∧
    isDeletable "DONE" = false ∧
    isDeletable "CODE_REVIEW" = true ∧
    ∀ st : String, isDeletable st = false ↔
      (st = "TODO" ∨ st = "IN_PROGRESS" ∨ st = "DONE") := by
  refine ⟨by decide, by decide, by decide, by decide, ?_⟩
  intro st
  simp [isDeletable, isStatic, staticStatuses]
  tauto

theorem exists_board_of_any {l : List Board} {id : String}
    (h : (l.any fun b => b.id == id) = true) : ∃ b ∈ l, b.id = id := by
  rcases List.any_eq_true.mp h with ⟨b, hb, hbid⟩
  exact ⟨b, hb, by simpa using hbid⟩

theorem refs_ok {α : Type} (f : α → String) (boards boards' : List Board)
    (xs xs' : List α)
    (h : ∀ x ∈ xs, ∃ b ∈ boards, b.id = f x)
    (hx : ∀ x ∈ xs', ∃ u ∈ xs, f u = f x)
    (hb : ∀ b ∈ boards, ∃ b' ∈ boards', b'.id = b.id) :
    ∀ x ∈ xs', ∃ b ∈ boards', b.id = f x := by
  intro x hxm
  rcases hx x hxm with ⟨u, hu, huf⟩
  rcases h u hu with ⟨b, hbm, hbid⟩
  rcases hb b hbm with ⟨b', hb'm, hb'id⟩
  exact ⟨b', hb'm, by rw [hb'id, hbid, huf]⟩

theorem applyOp_noOrphans (op : Op) (s : Store) (h : noOrphans s) :
    noOrphans (applyOp op s) := by
  obtain ⟨ht, hc⟩ := h
  cases op with
  | createBoard newId title description =>
    show noOrphans (createBoard s newId title description).2
    unfold createBoard
    split
    · dsimp only
      refine ⟨?_, ?_⟩
      · exact refs_ok Task.boardId s.boards _ s.tasks s.tasks ht
          (fun x hx => ⟨x, hx, rfl⟩)
          (fun b hb => ⟨b, List.mem_append_left _ hb, rfl⟩)
      · exact refs_ok Column.boardId s.boards _ s.columns s.columns hc
          (fun x hx => ⟨x, hx, rfl⟩)
          (fun b hb => ⟨b, List.mem_append_left _ hb, rfl⟩)
    · exact ⟨ht, hc⟩
  | updateBoard id title description =>
    show noOrphans (updateBoard s id title description).2
    unfold updateBoard
    split
    · split
      · exact ⟨ht, hc⟩
      · next b heq =>
        dsimp only
        have hbid : b.id = id := by
          have := List.find?_some heq
          simpa using this
        refine ⟨?_, ?_⟩
        · refine refs_ok Task.boardId s.boards _ s.tasks s.tasks ht
            (fun x hx => ⟨x, hx, rfl⟩) ?_
          intro b0 hb0
          refine ⟨_, List.mem_map_of_mem _ hb0, ?_⟩
          by_cases hcond : b0.id = id
          · simp [hcond, hbid]
          · simp [hcond]
        · refine refs_ok Column.boardId s.boards _ s.columns s.columns hc
            (fun x hx => ⟨x, hx, rfl⟩) ?_
          intro b0 hb0
          refine ⟨_, List.mem_map_of_mem _ hb0, ?_⟩
          by_cases hcond : b0.id = id
          · simp [hcond, hbid]
          · simp [hcond]
    · exact ⟨ht, hc⟩
  | deleteBoard id =>
    show noOrphans (deleteBoard s id).2
    unfold deleteBoard
    split
    · refine ⟨?_, ?_⟩
      · intro t htm
        have hmem := List.mem_filter.mp htm
        rcases ht t hmem.1 with ⟨b, hb, hbid⟩
        refine ⟨b, List.mem_filter.mpr ⟨hb, ?_⟩, hbid⟩
        have : t.boardId ≠ id := by simpa using hmem.2
        simp [hbid, this]
      · intro c hcm
        have hmem := List.mem_filter.mp hcm
        rcases hc c hmem.1 with ⟨b, hb, hbid⟩
        refine ⟨b, List.mem_filter.mpr ⟨hb, ?_⟩, hbid⟩
        have : c.boardId ≠ id := by simpa using hmem.2
        simp [hbid, this]
    · exact ⟨ht, hc⟩
  | createTask newId title description status priority boardId =>
    show noOrphans (createTask s newId title description status priority boardId).2
    unfold createTask
    split
    · dsimp only
      split
      · next hany =>
        refine ⟨?_, hc⟩
        intro t htm
        rcases List.mem_append.mp htm with h1 | h1
        · exact ht t h1
        · have : t.boardId = boardId.getD "" := by
            have h2 := List.mem_singleton.mp h1
            rw [h2]
          rcases exists_board_of_any hany with ⟨b, hb, hbid⟩
          exact ⟨b, hb, by rw [hbid, this]⟩
      · exact ⟨ht, hc⟩
    · exact ⟨ht, hc⟩
  | updateTask id title description status priority =>
    show noOrphans (updateTask s id title description status priority).2
    unfold updateTask
    split
    · split
      · exact ⟨ht, hc⟩
      · next t heq =>
        dsimp only
        refine ⟨?_, hc⟩
        refine refs_ok Task.boardId s.boards s.boards _ _ ht ?_
          (fun b hb => ⟨b, hb, rfl⟩)
        intro x hxm
        rcases List.mem_map.mp hxm with ⟨u, hu, hux⟩
        by_cases hcond : u.id = id
        · refine ⟨t, List.mem_of_find?_eq_some heq, ?_⟩
          rw [← hux]
          simp [hcond]
        · refine ⟨u, hu, ?_⟩
          rw [← hux]
          simp [hcond]
    · exact ⟨ht, hc⟩
  | deleteTask id =>
    show noOrphans (deleteTask s id).2
    unfold deleteTask
    split
    · refine ⟨?_, hc⟩
      intro t htm
      exact ht t (List.mem_filter.mp htm).1
    · exact ⟨ht, hc⟩
  | createColumn newId title status boardId =>
    show noOrphans (createColumn s newId title status boardId).2
    unfold createColumn
    split
    · dsimp only
      split
      · next hany =>
        refine ⟨ht, ?_⟩
        intro c hcm
        rcases List.mem_append.mp hcm with h1 | h1
        · exact hc c h1
        · have : c.boardId = boardId.getD "" := by
            have h2 := List.mem_singleton.mp h1
            rw [h2]
          rcases exists_board_of_any hany with ⟨b, hb, hbid⟩
          exact ⟨b, hb, by rw [hbid, this]⟩
      · exact ⟨ht, hc⟩
    · exact ⟨ht, hc⟩
  | updateColumn id title status order =>
    show noOrphans (updateColumn s id title status order).2
    unfold updateColumn
    split
    · split
      · exact ⟨ht, hc⟩
      · next c heq =>
        dsimp only
        refine ⟨ht, ?_⟩
        refine refs_ok Column.boardId s.boards s.boards _ _ hc ?_
          (fun b hb => ⟨b, hb, rfl⟩)
        intro x hxm
        rcases List.mem_map.mp hxm with ⟨u, hu, hux⟩
        by_cases hcond : u.id = id
        · refine ⟨c, List.mem_of_find?_eq_some heq, ?_⟩
          rw [← hux]
          simp [hcond]
        · refine ⟨u, hu, ?_⟩
          rw [← hux]
          simp [hcond]
    · exact ⟨ht, hc⟩
  | deleteColumn id =>
    show noOrphans (deleteColumn s id).2
    unfold deleteColumn
    split
    · refine ⟨ht, ?_⟩
      intro c hcm
      exact hc c (List.mem_filter.mp hcm).1
    · exact ⟨ht, hc⟩

/-- C1: deleting a board B removes B and, in the same cascading operation,
every Task and every Column whose `boardId` is `B.id`; afterwards fetching
B, any of those Tasks, or any of those Columns by id returns NotFound; and
every API operation preserves the no-orphan invariant (no Task or Column
references a missing Board after any operation completes). -/
theorem C1_boardDelete_cascade (s : Store) (B : Board)
    (hwf : s.wf) (hB : B ∈ s.boards) :
    (deleteBoard s B.id).1 = .ok () ∧
    (deleteBoard s B.id).2.boards = s.boards.filter (fun b => b.id != B.id) ∧
    (deleteBoard s B.id).2.tasks = s.tasks.filter (fun t => t.boardId != B.id) ∧
    (deleteBoard s B.id).2.columns = s.columns.filter (fun c => c.boardId != B.id) ∧
    fetchBoard (deleteBoard s B.id).2 B.id = .notFound "Board not found" ∧
    (∀ t ∈ s.tasks, t.boardId = B.id →
      fetchTask (deleteBoard s B.id).2 t.id = .notFound "Task not found") ∧
    (∀ c ∈ s.columns, c.boardId = B.id →
      fetchColumn (deleteBoard s B.id).2 c.id = .notFound "Column not found") ∧
    (∀ (op : Op) (s₀ : Store), noOrphans s₀ → noOrphans (applyOp op s₀)) := by
  have hany : (s.boards.any fun b => b.id == B.id) = true :=
    List.any_eq_true.mpr ⟨B, hB, by simp⟩
  have hstore : deleteBoard s B.id =
      (.ok (), { boards := s.boards.filter (fun b => b.id != B.id),
                 tasks := s.tasks.filter (fun t => t.boardId != B.id),
                 columns := s.columns.filter (fun c => c.boardId != B.id) }) := by
    unfold deleteBoard
    rw [if_pos hany]
  rw [hstore]
  refine ⟨rfl, rfl, rfl, rfl, ?_, ?_, ?_, fun op s₀ h => applyOp_noOrphans op s₀ h⟩
  · show fetchBoard _ B.id = _
    unfold fetchBoard
    have hnone : (s.boards.filter (fun b => b.id != B.id)).find?
        (fun b => b.id == B.id) = none := by
      rw [List.find?_eq_none]
      intro b hbm
      have := (List.mem_filter.mp hbm).2
      simp at this ⊢
      exact this
    rw [hnone]
  · intro t htm htb
    show fetchTask _ t.id = _
    unfold fetchTask
    have hnone : (s.tasks.filter (fun u => u.boardId != B.id)).find?
        (fun u => u.id == t.id) = none := by
      rw [List.find?_eq_none]
      intro u hum
      have hu1 := (List.mem_filter.mp hum).1
      have hu2 : u.boardId ≠ B.id := by
        have := (List.mem_filter.mp hum).2
        simpa using this
      simp only [Bool.not_eq_true, beq_eq_false_iff_ne, ne_eq]
      intro huid
      have : u = t := List.inj_on_of_nodup_map hwf.2.1 hu1 htm huid
      rw [this] at hu2
      exact hu2 htb
    rw [hnone]
  · intro c hcm hcb
    show fetchColumn _ c.id = _
    unfold fetchColumn
    have hnone : (s.columns.filter (fun d => d.boardId != B.id)).find?
        (fun d => d.id == c.id) = none := by
      rw [List.find?_eq_none]
      intro d hdm
      have hd1 := (List.mem_filter.mp hdm).1
      have hd2 : d.boardId ≠ B.id := by
        have := (List.mem_filter.mp hdm).2
        simpa using this
      simp only [Bool.not_eq_true, beq_eq_false_iff_ne, ne_eq]
      intro hdid
      have : d = c := List.inj_on_of_nodup_map hwf.2.2 hd1 hcm hdid
      rw [this] at hd2
      exact hd2 hcb
    rw [hnone]

/-- Concrete board used by the witness stores. -/
def demoBoard : Board := { id := "b1", title := "Sprint 1", description := none }

/-- Concrete task of `demoBoard`. -/
def demoTask : Task :=
  { id := "t1", title := "Fix bug", description := none,
    status := "TODO", priority := "MEDIUM", boardId := "b1" }

/-- Concrete store with one board, one task and one custom column. -/
def demoStore : Store :=
  { boards := [demoBoard], tasks := [demoTask], columns := [qaColumn] }

theorem C1_witness :
    demoStore.wf ∧ demoBoard ∈ demoStore.boards ∧
    fetchBoard (deleteBoard demoStore demoBoard.id).2 demoBoard.id
      = .notFound "Board not found" ∧
    fetchTask (deleteBoard demoStore demoBoard.id).2 demoTask.id
      = .notFound "Task not found" ∧
    fetchColumn (deleteBoard demoStore demoBoard.id).2 qaColumn.id
      = .notFound "Column not found" := by
  have h := C1_boardDelete_cascade demoStore demoBoard (by decide) (by decide)
  exact ⟨by decide, by decide, h.2.2.2.2.1,
    h.2.2.2.2.2.1 demoTask (by decide) (by decide),
    h.2.2.2.2.2.2.1 qaColumn (by decide) (by decide)⟩

theorem find?_key_eq_some {α : Type} (key : α → String) {l : List α}
    (hnd : (l.map key).Nodup) {x : α} (hx : x ∈ l) :
    l.find? (fun u => key u == key x) = some x := by
  induction l with
  | nil => simp at hx
  | cons d rest ih =>
    rw [List.map_cons, List.nodup_cons] at hnd
    rcases List.mem_cons.mp hx with rfl | hmem
    · exact List.find?_cons_of_pos _ (by simp)
    · have hne : (key d == key x) = false := by
        simp only [beq_eq_false_iff_ne, ne_eq]
        intro h
        exact hnd.1 (h ▸ List.mem_map_of_mem key hmem)
      rw [List.find?_cons]
      show (match (key d == key x) with
        | true => some d
        | false => List.find? (fun u => key u == key x) rest) = some x
      rw [hne]
      exact ih hnd.2 hmem

/-- C4 fails as stated: on a store containing board "b1", a PUT whose body
supplies only `description` is rejected with a 400 Validation failure on
`title` (the update route reuses `validateBoard`, whose title rule is not
optional), and the store is unchanged — it does not succeed with 200. -/
theorem C4_counterexample :
    updateBoard demoStore "b1" none (some "New description")
      = (.validationFailed [("title", "Title must be between 1 and 100 characters")],
         demoStore) := by
  decide

/-- C4 amended: board update validates `title` as required, so a PUT
supplying only `description` fails with 400 Validation (naming `title`)
and leaves the store unchanged; the patch is partial only in the other
direction: a PUT supplying a valid `title` and omitting `description`
succeeds with 200 and leaves the stored description unchanged. -/
theorem C4_board_update_amended :
    (∀ (s : Store) (id : String) (d : String), (jsTrim d).length ≤ 500 →
      updateBoard s id none (some d)
        = (.validationFailed [("title", "Title must be between 1 and 100 characters")], s)) ∧
    (∀ (s : Store) (b : Board) (t : String), s.wf → b ∈ s.boards →
      1 ≤ (jsTrim t).length → (jsTrim t).length ≤ 100 →
      ∃ b' : Board,
        updateBoard s b.id (some t) none
          = (.ok b',
             { s with boards := s.boards.map (fun c => if c.id == b.id then b' else c) }) ∧
        b'.title = (jsTrim t) ∧ b'.description = b.description ∧ b'.id = b.id) := by
  constructor
  · intro s id d hd
    have hv : validateBoardBody none (some d)
        = [("title", "Title must be between 1 and 100 characters")] := by
      simp [validateBoardBody, hd]
    unfold updateBoard
    rw [hv]
  · intro s b t hwf hb ht1 ht2
    have hv : validateBoardBody (some t) none = [] := by
      simp [validateBoardBody, ht1, ht2]
    have hfind : s.boards.find? (fun c => c.id == b.id) = some b :=
      find?_key_eq_some Board.id hwf.1 hb
    refine ⟨{ b with title := (jsTrim t) }, ?_, rfl, rfl, rfl⟩
    unfold updateBoard
    rw [hv, hfind]
    dsimp only [Option.getD]

theorem C4_witness :
    (jsTrim "Only a description").length ≤ 500 ∧
    updateBoard demoStore "b1" none (some "Only a description")
      = (.validationFailed [("title", "Title must be between 1 and 100 characters")],
         demoStore) :=
  ⟨by decide, C4_board_update_amended.1 demoStore "b1" "Only a description" (by decide)⟩

/-- C6: creating a Task whose `boardId` references no existing Board, with a
body that passes field validation, returns NotFound (404) and leaves the
store unchanged — no Task row is created. -/
theorem C6_createTask_missing_board (s : Store) (newId : String)
    (title description status priority : Option String) (bid : String)
    (hval : validateTaskBody title description status priority (some bid) = [])
    (hmiss : ∀ b ∈ s.boards, b.id ≠ bid) :
    createTask s newId title description status priority (some bid)
      = (.notFound "Board not found", s) := by
  have hany : (s.boards.any fun b => b.id == (some bid : Option String).getD "") = false := by
    rw [List.any_eq_false]
    intro b hb
    simpa using hmiss b hb
  unfold createTask
  rw [hval]
  dsimp only
  rw [hany]
  rfl

theorem C6_witness :
    validateTaskBody (some "X") none none none (some "nope") = [] ∧
    createTask demoStore "t9" (some "X") none none none (some "nope")
      = (.notFound "Board not found", demoStore) := by
  refine ⟨by decide, ?_⟩
  exact C6_createTask_missing_board demoStore "t9" (some "X") none none none "nope"
    (by decide) (by decide)

/-- C8: updating an existing Task with a body containing only `status` set
to an arbitrary string succeeds, stores exactly that string with no
validation against existing Columns or static statuses, and leaves the
task's title, description, priority and boardId (and id) unchanged; no
other row of the store is touched. -/
theorem C8_task_status_update (s : Store) (t : Task) (str : String)
    (hwf : s.wf) (ht : t ∈ s.tasks) :
    ∃ t' : Task,
      updateTask s t.id none none (some str) none
        = (.ok t',
           { s with tasks := s.tasks.map (fun u => if u.id == t.id then t' else u) }) ∧
      t'.status = str ∧ t'.title = t.title ∧ t'.description = t.description ∧
      t'.priority = t.priority ∧ t'.boardId = t.boardId ∧ t'.id = t.id := by
  have hfind : s.tasks.find? (fun u => u.id == t.id) = some t :=
    find?_key_eq_some Task.id hwf.2.1 ht
  refine ⟨{ t with status := str }, ?_, rfl, rfl, rfl, rfl, rfl, rfl⟩
  unfold updateTask
  rw [show validateTaskUpdateBody none none (some str) none = [] from rfl, hfind]

theorem C8_witness :
    demoStore.wf ∧
    ∃ t' : Task,
      updateTask demoStore demoTask.id none none (some "NOT_A_COLUMN") none
        = (.ok t',
           { demoStore with
             tasks := demoStore.tasks.map (fun u => if u.id == demoTask.id then t' else u) }) ∧
      t'.status = "NOT_A_COLUMN" ∧ t'.title = demoTask.title ∧
      t'.description = demoTask.description ∧ t'.priority = demoTask.priority ∧
      t'.boardId = demoTask.boardId ∧ t'.id = demoTask.id :=
  ⟨by decide, C8_task_status_update demoStore demoTask "NOT_A_COLUMN" (by decide) (by decide)⟩

/-- Title of length 101 whose first character is a space: the trim
sanitizer reduces it to 100 characters, which passes validation. -/
def paddedTitle : String := ⟨' ' :: List.replicate 100 'a'⟩

/-- Title of 101 non-whitespace characters. -/
def longTitle : String := ⟨List.replicate 101 'a'⟩

/-- C9 fails as stated: a title of length 101 does not always fail
validation — the `trim` sanitizer runs first, so a 101-character title
with a leading space is stored (trimmed to 100 characters) and creation
succeeds with 201 rather than failing Validation. -/
theorem C9_counterexample :
    paddedTitle.length = 101 ∧
    (createBoard demoStore "b9" (some paddedTitle) none).1
      = .ok { id := "b9", title := ⟨List.replicate 100 'a'⟩, description := none } := by
  constructor
  · decide
  · decide

/-- C9 amended: creating a Board with an empty title fails with a 400
Validation error carrying a field-level message for `title` and leaves the
store untouched; a title of length 101 also fails whenever its trimmed
length still exceeds 100 (for example 101 non-whitespace characters) —
but a 101-character title whose trimmed length is at most 100 passes,
because the trim sanitizer runs before the length check. -/
theorem C9_board_validation_amended :
    (∀ (s : Store) (newId : String) (desc : Option String),
      ∃ errs, createBoard s newId (some "") desc = (.validationFailed errs, s) ∧
        ("title", "Title must be between 1 and 100 characters") ∈ errs) ∧
    (∀ (s : Store) (newId : String) (desc : Option String) (t : String),
      t.length = 101 → 100 < (jsTrim t).length →
      ∃ errs, createBoard s newId (some t) desc = (.validationFailed errs, s) ∧
        ("title", "Title must be between 1 and 100 characters") ∈ errs) := by
  constructor
  · intro s newId desc
    have hv : validateBoardBody (some "") desc
        = ("title", "Title must be between 1 and 100 characters") ::
          (match desc with
           | none => []
           | some d =>
             if (jsTrim d).length ≤ 500 then []
             else [("description", "Description must be less than 500 characters")]) := by
      have h0 : ¬(1 ≤ (jsTrim "").length ∧ (jsTrim "").length ≤ 100) := by decide
      simp [validateBoardBody, h0]
    unfold createBoard
    rw [hv]
    exact ⟨_, rfl, List.mem_cons_self _ _⟩
  · intro s newId desc t hlen htrim
    have hv : validateBoardBody (some t) desc
        = ("title", "Title must be between 1 and 100 characters") ::
          (match desc with
           | none => []
           | some d =>
             if (jsTrim d).length ≤ 500 then []
             else [("description", "Description must be less than 500 characters")]) := by
      have h0 : ¬(1 ≤ (jsTrim t).length ∧ (jsTrim t).length ≤ 100) := by omega
      simp [validateBoardBody, h0]
    unfold createBoard
    rw [hv]
    exact ⟨_, rfl, List.mem_cons_self _ _⟩

theorem C9_witness :
    longTitle.length = 101 ∧ 100 < (jsTrim longTitle).length ∧
    ∃ errs, createBoard demoStore "b9" (some longTitle) none
        = (.validationFailed errs, demoStore) ∧
      ("title", "Title must be between 1 and 100 characters") ∈ errs :=
  ⟨by decide, by decide,
    C9_board_validation_amended.2 demoStore "b9" none longTitle (by decide) (by decide)⟩

/-- C10: a Task created with `status` explicitly present but equal to `""`
passes validation (the status rule only requires a string) and is stored
with status `"TODO"`: the empty string is replaced by the default via
`status: status || 'TODO'`. -/
theorem C10_empty_status_defaults (s : Store) (newId : String)
    (title desc priority : Option String) (bid : String)
    (hval : validateTaskBody title desc (some "") priority (some bid) = [])
    (hb : (s.boards.any fun b => b.id == bid) = true) :
    ∃ t : Task,
      createTask s newId title desc (some "") priority (some bid)
        = (.ok t, { s with tasks := s.tasks ++ [t] }) ∧
      t.status = "TODO" := by
  unfold createTask
  rw [hval]
  dsimp only
  simp only [Option.getD_some]
  rw [hb]
  exact ⟨_, rfl, rfl⟩

theorem C10_witness :
    validateTaskBody (some "Fix") none (some "") none (some "b1") = [] ∧
    (demoStore.boards.any fun b => b.id == "b1") = true ∧
    ∃ t : Task,
      createTask demoStore "t9" (some "Fix") none (some "") none (some "b1")
        = (.ok t, { demoStore with tasks := demoStore.tasks ++ [t] }) ∧
      t.status = "TODO" :=
  ⟨by decide, by decide,
    C10_empty_status_defaults demoStore "t9" (some "Fix") none none "b1"
      (by decide) (by decide)⟩

end Kanban
